import Mathlib

/-!
# Verification of the ssaavvee single-page feed application

Shallow embedding of `src/auth.js` (classes `FirebaseAuthManager` and
`PageRenderer`).  The external provider (Firebase Auth / Firestore) is an
opaque collaborator: the outcome of each provider call (sign-in, document
write, `addDoc`) is passed to the embedded function as an explicit
`Except`-valued argument, and the provider calls a function issues are
collected in an explicit call list.  Timestamps written through
`window.serverTimestamp()` are modelled by the placeholder `Timestamp.server`.
-/

namespace Ssaavvee

instance {ε α : Type} [DecidableEq ε] [DecidableEq α] : DecidableEq (Except ε α)
  | .ok a, .ok b =>
    if h : a = b then .isTrue (by rw [h]) else .isFalse (by intro hh; cases hh; exact h rfl)
  | .ok _, .error _ => .isFalse (by intro h; cases h)
  | .error _, .ok _ => .isFalse (by intro h; cases h)
  | .error e, .error f =>
    if h : e = f then .isTrue (by rw [h]) else .isFalse (by intro hh; cases hh; exact h rfl)

/-- A signed-in user, as delivered by the identity provider
(`userCredential.user`): we keep the fields the code reads. -/
structure User where
  uid : String
  email : String
  emailVerified : Bool
deriving DecidableEq

/-- A value produced by `window.serverTimestamp()`; the provider fills it in
server-side, so the client-visible value is a single placeholder. -/
inductive Timestamp where
  | server
deriving DecidableEq

/-- A post document as persisted/returned by `createPost`
(src/auth.js lines 161-187: `{ id: docRef.id, ...postData }`). -/
structure Post where
  id : String
  content : String
  category : String
  userId : String
  userEmail : String
  createdAt : Timestamp
  updatedAt : Timestamp
deriving DecidableEq

/-- A category document as persisted/returned by `createCategory`
(src/auth.js lines 265-288). -/
structure Category where
  id : String
  name : String
  createdBy : String
  createdAt : Timestamp
deriving DecidableEq

/-- A network call against the document store.  `createPost`/`createCategory`
reach the provider only through `window.addDoc`; the profile functions
through `window.setDoc`. -/
inductive ProviderCall where
  | addPost (content category userId userEmail : String)
  | addCategory (name createdBy : String)
  | setProfileDoc (uid : String) (merge : Bool)
deriving DecidableEq

/-- JavaScript `String.prototype.trim`: remove whitespace from both ends
(whitespace modelled by `Char.isWhitespace`, the ASCII core of `\s`). -/
def jsTrim (s : String) : String :=
  String.mk ((s.data.dropWhile Char.isWhitespace).rdropWhile Char.isWhitespace)

/- ## FirebaseAuthManager: error mapping and auth/data gateway -/

/-- A JavaScript error as seen by `handleFirebaseError`: a Firebase error
carries a string `error.code`; a plain `new Error(msg)` has no code. -/
inductive FirebaseError where
  | code (c : String)
  | plain (msg : String)
deriving DecidableEq

/-- `FirebaseAuthManager.handleFirebaseError` (src/auth.js lines 135-158):
switch on `error.code`, with a generic default.  A plain `Error` has no
`code`, so it always falls through to the default branch. -/
def handleFirebaseError : FirebaseError → String
  | .code "auth/email-already-in-use" => "An account with this email already exists"
  | .code "auth/invalid-email" => "Please enter a valid email address"
  | .code "auth/operation-not-allowed" => "Email/password accounts are not enabled"
  | .code "auth/weak-password" => "Password should be at least 6 characters"
  | .code "auth/user-disabled" => "This account has been disabled"
  | .code "auth/user-not-found" => "No account found with this email"
  | .code "auth/wrong-password" => "Incorrect password"
  | .code "auth/invalid-credential" => "Invalid email or password"
  | .code "auth/too-many-requests" => "Too many failed attempts. Please try again later"
  | .code _ => "Authentication failed. Please try again"
  | .plain _ => "Authentication failed. Please try again"

/-- `FirebaseAuthManager.createUserProfile` (src/auth.js lines 77-85): a
`setDoc` failure is logged (`console.error`) and re-thrown as the plain
error `Failed to create user profile`.  First component: the outcome;
second: the console log entries. -/
def createUserProfile (setDocResult : Except String Unit) :
    Except FirebaseError Unit × List String :=
  match setDocResult with
  | .ok _ => (.ok (), [])
  | .error _ => (.error (.plain "Failed to create user profile"),
                 ["Error creating user profile:"])

/-- `FirebaseAuthManager.updateUserProfile` (src/auth.js lines 88-95): a
`setDoc` failure is logged and swallowed; the function never throws. -/
def updateUserProfile (setDocResult : Except String Unit) : Unit × List String :=
  match setDocResult with
  | .ok _ => ((), [])
  | .error _ => ((), ["Error updating user profile:"])

/-- Outcome of `registerUser`: the value returned or error thrown, whether
the provider-side identity record remains created (nothing in the code ever
deletes it), and the console log entries. -/
structure RegisterOutcome where
  result : Except String User
  identityPersisted : Bool
  logs : List String

/-- `FirebaseAuthManager.registerUser` (src/auth.js lines 41-57):
create the identity, then write the initial profile document; any error is
mapped through `handleFirebaseError`.  `createResult` is the outcome of
`createUserWithEmailAndPassword`; `profileWrite` the outcome of the
profile `setDoc`. -/
def registerUser (createResult : Except FirebaseError User)
    (profileWrite : Except String Unit) : RegisterOutcome :=
  match createResult with
  | .error e => ⟨.error (handleFirebaseError e), false, []⟩
  | .ok u =>
    match createUserProfile profileWrite with
    | (.ok _, logs) => ⟨.ok u, true, logs⟩
    | (.error e, logs) => ⟨.error (handleFirebaseError e), true, logs⟩

/-- `FirebaseAuthManager.authenticateUser` (src/auth.js lines 60-74):
sign in, then update the profile `lastLogin` field through
`updateUserProfile` (which absorbs its own failure); a sign-in error is
mapped through `handleFirebaseError`.  Second component: console logs. -/
def authenticateUser (signInResult : Except FirebaseError User)
    (setDocResult : Except String Unit) : Except String User × List String :=
  match signInResult with
  | .error e => (.error (handleFirebaseError e), [])
  | .ok u =>
    let r := updateUserProfile setDocResult
    (.ok u, r.2)

/-- `FirebaseAuthManager.createPost` (src/auth.js lines 161-187).
Guards run in source order: the authentication check, then the
empty-after-trim check (`!content || content.trim().length === 0`;
`!content` only catches the empty string, which the trim check already
covers), both before any provider call.  `addDocResult` is the outcome of
`window.addDoc`; the returned call list records every provider call made. -/
def createPost (currentUser : Option User) (content : String) (category : String)
    (addDocResult : Except Unit String) : Except String Post × List ProviderCall :=
  match currentUser with
  | none => (.error "User must be authenticated to create posts", [])
  | some u =>
    if (jsTrim content).length = 0 then
      (.error "Post content cannot be empty", [])
    else
      let call := ProviderCall.addPost (jsTrim content) category u.uid u.email
      match addDocResult with
      | .ok docId =>
        (.ok ⟨docId, jsTrim content, category, u.uid, u.email, .server, .server⟩, [call])
      | .error _ => (.error "Failed to create post", [call])

/-- `FirebaseAuthManager.createCategory` (src/auth.js lines 265-288):
same guard structure as `createPost`. -/
def createCategory (currentUser : Option User) (categoryName : String)
    (addDocResult : Except Unit String) : Except String Category × List ProviderCall :=
  match currentUser with
  | none => (.error "User must be authenticated to create categories", [])
  | some u =>
    if (jsTrim categoryName).length = 0 then
      (.error "Category name cannot be empty", [])
    else
      let call := ProviderCall.addCategory (jsTrim categoryName) u.uid
      match addDocResult with
      | .ok docId => (.ok ⟨docId, jsTrim categoryName, u.uid, .server⟩, [call])
      | .error _ => (.error "Failed to create category", [call])

/- ## PageRenderer: view state machine (subscription lifecycle) -/

/-- The view currently rendered into `#app-container`. -/
inductive View where
  | loading
  | login
  | signup
  | dashboard
deriving DecidableEq

/-- The renderer's subscription-relevant state: the rendered view and
whether the posts / categories live subscriptions are held
(`this.postsUnsubscribe` / `this.categoriesUnsubscribe` hold live handles). -/
structure RendererState where
  view : View
  postsSubActive : Bool
  catsSubActive : Bool
deriving DecidableEq

/-- `PageRenderer.renderLoginPage` (src/auth.js lines 371-442): rewrites the
container markup and wires the login form.  It touches neither unsubscribe
handle. -/
def renderLoginPage (s : RendererState) : RendererState :=
  { s with view := .login }

/-- `PageRenderer.initializeFeed` (src/auth.js lines 874-899): opens the
posts subscription and the categories subscription, storing both handles. -/
def initializeFeed (s : RendererState) : RendererState :=
  { s with postsSubActive := true, catsSubActive := true }

/-- `PageRenderer.renderDashboard` (src/auth.js lines 531-670): renders the
dashboard markup, then `attachDashboardEventListeners` and
`initializeFeed`. -/
def renderDashboard (s : RendererState) : RendererState :=
  initializeFeed { s with view := .dashboard }

/-- `PageRenderer.cleanup` (src/auth.js lines 1124-1132): calls both
unsubscribe handles.  No call site of this method exists anywhere in the
repository. -/
def cleanup (s : RendererState) : RendererState :=
  { s with postsSubActive := false, catsSubActive := false }

/-- `FirebaseAuthManager.handleAuthStateChange` (src/auth.js lines 29-38):
a signed-in user renders the dashboard, a null user renders the login
page.  Nothing on either path releases the live subscriptions. -/
def handleAuthStateChange (user : Option User) (s : RendererState) : RendererState :=
  match user with
  | some _ => renderDashboard s
  | none => renderLoginPage s

/-- The dashboard logout-button handler (src/auth.js lines 789-799): await
`authManager.logout()`; on success the provider auth-state listener fires
with a null user (`handleAuthStateChange none`); on failure the handler
forces `renderLoginPage` directly. -/
def logoutClick (s : RendererState) (signOutOk : Bool) : RendererState :=
  if signOutOk then handleAuthStateChange none s else renderLoginPage s

/-- The category the post-form submit handler passes to `createPost`
(src/auth.js line 849): `selectedCategory === 'All' ? 'General' :
selectedCategory`. -/
def submitCategoryFor (selectedCategory : String) : String :=
  if selectedCategory = "All" then "General" else selectedCategory

/-- The dashboard post-form submit handler (src/auth.js lines 829-871):
trim the textarea value; an empty result shows the inline error without
calling `createPost`; otherwise call `createPost` with the category derived
from the selected one. -/
def dashboardSubmitPost (selectedCategory : String) (textareaValue : String)
    (currentUser : Option User) (addDocResult : Except Unit String) :
    Except String Post × List ProviderCall :=
  let content := jsTrim textareaValue
  if content = "" then
    (.error "Please enter some content to post", [])
  else
    createPost currentUser content (submitCategoryFor selectedCategory) addDocResult

/- ## Live subscriptions -/

/-- The shape of a live query as assembled by the gateway before calling
`window.onSnapshot` (collection, optional equality filter, order, limit). -/
structure QuerySpec where
  collectionName : String
  whereCategory : Option String
  orderByField : String
  descending : Bool
  limitCount : Option Nat
deriving DecidableEq

/-- The two callbacks a subscription hands to `window.onSnapshot`:
`onSnap` turns a snapshot (document id and data pairs) into the list passed
to the subscriber's callback; `onErr` is the error callback — a `.ok l`
result means the subscriber's callback is invoked with `l` and the handler
returns normally, `.error` would model an exception escaping the handler. -/
structure SnapshotHandlers (δ ρ : Type) where
  onSnap : List (String × δ) → List ρ
  onErr : Unit → Except String (List ρ)

/-- The data fields of a post document (`doc.data()`). -/
structure PostFields where
  content : String
  category : String
  userId : String
  userEmail : String
  createdAt : Timestamp
  updatedAt : Timestamp
deriving DecidableEq

/-- The data fields of a category document (`doc.data()`). -/
structure CategoryFields where
  name : String
  createdBy : String
  createdAt : Timestamp
deriving DecidableEq

/-- `FirebaseAuthManager.subscribeToPosts` (src/auth.js lines 190-232):
authentication guard, then a query filtered by category when the category
argument is truthy and not `All` (a null or empty-string category is falsy
in JavaScript), ordered by `createdAt` descending and capped at
`limitCount`; the snapshot callback maps documents to `{id, ...data}`
records, and the error callback logs and invokes the subscriber's callback
with the empty list. -/
def subscribeToPosts (currentUser : Option User) (category : Option String)
    (limitCount : Nat) :
    Except String (QuerySpec × SnapshotHandlers PostFields Post) :=
  match currentUser with
  | none => .error "User must be authenticated to view posts"
  | some _ =>
    let filtered : Option String :=
      match category with
      | some c => if c ≠ "" ∧ c ≠ "All" then some c else none
      | none => none
    .ok (⟨"posts", filtered, "createdAt", true, some limitCount⟩,
         { onSnap := fun docs => docs.map fun d =>
             ⟨d.1, d.2.content, d.2.category, d.2.userId, d.2.userEmail,
              d.2.createdAt, d.2.updatedAt⟩,
           onErr := fun _ => .ok [] })

/-- `FirebaseAuthManager.subscribeToCategories` (src/auth.js lines 320-350):
authentication guard, then an unbounded query ordered by `createdAt`
ascending; error callback as in `subscribeToPosts`. -/
def subscribeToCategories (currentUser : Option User) :
    Except String (QuerySpec × SnapshotHandlers CategoryFields Category) :=
  match currentUser with
  | none => .error "User must be authenticated to view categories"
  | some _ =>
    .ok (⟨"categories", none, "createdAt", false, none⟩,
         { onSnap := fun docs => docs.map fun d =>
             ⟨d.1, d.2.name, d.2.createdBy, d.2.createdAt⟩,
           onErr := fun _ => .ok [] })

/- ## Content formatter -/

/-- `PageRenderer.escapeHtml` (src/auth.js lines 1053-1057): assigning
`textContent` and reading `innerHTML` serializes the text node, escaping
the markup-significant characters of text content: ampersand, less-than
and greater-than.  Quotes are left as they are in text-node serialization. -/
def escapeHtmlChar (c : Char) : List Char :=
  if c = '&' then ("&amp;").data
  else if c = '<' then ("&lt;").data
  else if c = '>' then ("&gt;").data
  else [c]

/-- `PageRenderer.escapeHtml` on a whole string. -/
def escapeHtml (s : String) : String :=
  String.mk (s.data.map escapeHtmlChar).flatten

/-- The apostrophe character, excluded from URL bodies by the regex. -/
def apostrophe : Char := Char.ofNat 39

/-- A character the regex class of the URL-body run accepts: anything that
is not whitespace and none of the angle brackets or quote characters
(the class written as not-whitespace, not `<`, not `>`, not a double or
single quote in src/auth.js line 1061). -/
def urlBodyChar (c : Char) : Bool :=
  !(c.isWhitespace || c == '<' || c == '>' || c == '"' || c == apostrophe)

/-- The trailing-punctuation characters the final character of a match may
not be (the additional exclusions of the regex's last character class). -/
def trailingPunct (c : Char) : Bool :=
  c == '.' || c == ',' || c == '!' || c == '?' || c == ';' || c == ':'

def httpScheme : List Char := ['h', 't', 't', 'p', ':', '/', '/']

def httpsScheme : List Char := ['h', 't', 't', 'p', 's', ':', '/', '/']

/-- Match `https?://` at the head of the input (greedy on the optional
`s`), returning the scheme characters and the remainder. -/
def schemeSplit (cs : List Char) : Option (List Char × List Char) :=
  if cs.take 8 = httpsScheme then some (httpsScheme, cs.drop 8)
  else if cs.take 7 = httpScheme then some (httpScheme, cs.drop 7)
  else none

/-- One attempt of the URL regex of src/auth.js lines 1061 and 1067 at the
current position, with JavaScript leftmost-greedy semantics: after the
scheme, the greedy one-or-more body class takes the maximal run of
`urlBodyChar`s; backtracking for the final character class (body class
minus trailing punctuation) makes the match the longest prefix of that run
whose last character is not trailing punctuation, and the whole match needs
at least two characters after the scheme.  Returns the matched characters
and the rest of the input after the match. -/
def matchUrlAt (cs : List Char) : Option (List Char × List Char) :=
  match schemeSplit cs with
  | none => none
  | some (sch, r) =>
    let run := r.takeWhile urlBodyChar
    let core := run.rdropWhile trailingPunct
    if 2 ≤ core.length then
      some (sch ++ core, run.drop core.length ++ r.dropWhile urlBodyChar)
    else none

/-- A piece of the scanned input: a single unmatched character, or one
regex match (a URL). -/
inductive LinkChunk where
  | text (c : Char)
  | url (u : List Char)
deriving DecidableEq

/-- The global-flag scan of `String.replace`/`String.match`: try the regex
at each position; on a match consume it and continue after it, otherwise
emit the character and advance by one.  Fuel-indexed for structural
recursion; `linkChunks` instantiates the fuel with the input length, which
suffices because every step consumes at least one character. -/
def linkScan : Nat → List Char → List LinkChunk
  | _, [] => []
  | 0, _ :: _ => []
  | fuel + 1, c :: cs =>
    match matchUrlAt (c :: cs) with
    | some (u, rest) => .url u :: linkScan fuel rest
    | none => .text c :: linkScan fuel cs

/-- The decomposition of an input into unmatched characters and URL
matches. -/
def linkChunks (cs : List Char) : List LinkChunk := linkScan cs.length cs

/-- The characters of the input a chunk covers. -/
def chunkPayload : LinkChunk → List Char
  | .text c => [c]
  | .url u => u

def anchorOpen : String := "<a href=\""

def anchorMid : String :=
  "\" target=\"_blank\" rel=\"noopener noreferrer\" class=\"text-custom-blue underline hover:opacity-80 font-medium\">"

def anchorClose : String := "</a>"

/-- What a chunk renders to: unmatched characters verbatim; a match `u`
becomes the anchor replacement template of src/auth.js line 1062 with `$1`
instantiated to `u` in both the `href` attribute and the link text. -/
def renderChunk : LinkChunk → List Char
  | .text c => [c]
  | .url u => anchorOpen.data ++ u ++ anchorMid.data ++ u ++ anchorClose.data

/-- `PageRenderer.linkifyText` (src/auth.js lines 1060-1063):
`text.replace(urlRegex, anchor-template)`. -/
def linkifyText (s : String) : String :=
  String.mk ((linkChunks s.data).map renderChunk).flatten

/-- The URL a chunk contributes, if any. -/
def urlOf : LinkChunk → Option String
  | .url u => some (String.mk u)
  | .text _ => none

/-- `PageRenderer.extractUrls` (src/auth.js lines 1066-1069):
`text.match(urlRegex) || []` — the list of matches of the same regex. -/
def extractUrls (s : String) : List String :=
  (linkChunks s.data).filterMap urlOf

/-- Well-formedness of a matched URL, as the code's regex defines it:
`http(s)://`, then a body of at least two `urlBodyChar`s whose last
character is not trailing punctuation. -/
def goodUrlB (u : List Char) : Bool :=
  match schemeSplit u with
  | some (_, body) =>
    2 ≤ body.length && body.all urlBodyChar &&
      (match body.getLast? with
       | some c => !trailingPunct c
       | none => false)
  | none => false

/-- The claim's own notion of a well-formed URL occurrence: the scheme
followed by a non-whitespace run that is still non-empty after trimming
trailing punctuation.  Follows the claim's words (not the code); used only
to exhibit the gap between the two. -/
def specUrlAt (cs : List Char) : Bool :=
  match schemeSplit cs with
  | some (_, r) =>
    1 ≤ ((r.takeWhile fun c => !c.isWhitespace).rdropWhile trailingPunct).length
  | none => false

/-- Whether some position of the input starts a claim-well-formed URL. -/
def specHasUrl : List Char → Bool
  | [] => false
  | c :: t => specUrlAt (c :: t) || specHasUrl t

/- ## Trim lemmas -/

theorem jsTrim_data (s : String) :
    (jsTrim s).data = (s.data.dropWhile Char.isWhitespace).rdropWhile Char.isWhitespace := rfl

theorem dropWhile_head_false {p : Char → Bool} {l : List Char}
    (h : ∀ hl : 0 < l.length, ¬p (l.get ⟨0, hl⟩)) : l.dropWhile p = l := by
  cases l with
  | nil => rfl
  | cons c cs =>
    have hc : ¬p c = true := h (by simp)
    simp [List.dropWhile_cons, hc]

theorem dropWhile_eq_self_of_prefix {p : Char → Bool} {l l' : List Char}
    (hpre : l' <+: l) (h : l.dropWhile p = l) : l'.dropWhile p = l' := by
  cases l' with
  | nil => rfl
  | cons c t =>
    obtain ⟨r, hr⟩ := hpre
    have hc : ¬p c = true := by
      intro hpc
      rw [← hr] at h
      rw [List.cons_append, List.dropWhile_cons, if_pos hpc] at h
      have hlen := congrArg List.length h
      have hle : (List.dropWhile p (t ++ r)).length ≤ (t ++ r).length :=
        (List.dropWhile_sublist _).length_le
      rw [List.length_cons] at hlen
      omega
    rw [List.dropWhile_cons, if_neg hc]

theorem jsTrim_idem (s : String) : jsTrim (jsTrim s) = jsTrim s := by
  unfold jsTrim
  congr 1
  set m := s.data.dropWhile Char.isWhitespace with hm
  have hm' : m.dropWhile Char.isWhitespace = m := by
    rw [hm]
    exact List.dropWhile_idempotent _ _
  have hhead : (m.rdropWhile Char.isWhitespace).dropWhile Char.isWhitespace
      = m.rdropWhile Char.isWhitespace :=
    dropWhile_eq_self_of_prefix (List.rdropWhile_prefix _ _) hm'
  rw [hhead, List.rdropWhile_idempotent]

theorem jsTrim_length_le (s : String) : (jsTrim s).length ≤ s.length := by
  have h1 : ((s.data.dropWhile Char.isWhitespace).rdropWhile Char.isWhitespace).length
      ≤ (s.data.dropWhile Char.isWhitespace).length :=
    (List.rdropWhile_prefix _ _).length_le
  have h2 : (s.data.dropWhile Char.isWhitespace).length ≤ s.data.length :=
    (List.dropWhile_sublist _).length_le
  show (jsTrim s).data.length ≤ s.data.length
  rw [jsTrim_data]
  omega

/- ## Claim theorems (gateway-level) -/

/-- C4: while no user is authenticated, `createPost` and `createCategory`
fail with their authentication-required errors, and the provider-call list
is empty (the guard precedes any network call), regardless of the content,
category or name arguments and of what the provider would have answered. -/
theorem createPost_createCategory_unauthenticated
    (content category name : String) (r1 r2 : Except Unit String) :
    createPost none content category r1
      = (.error "User must be authenticated to create posts", []) ∧
    createCategory none name r2
      = (.error "User must be authenticated to create categories", []) :=
  ⟨rfl, rfl⟩

/-- C5: for every content string that is empty or whitespace-only after
trimming, `createPost` fails and makes no provider call, in every
authentication state; when a user is authenticated the error is the
validation error `Post content cannot be empty`.  (While unauthenticated
the authentication guard, which runs first, reports its own error — claim
C4 — still with no provider call.) -/
theorem createPost_empty_content_validation
    (u : Option User) (content category : String) (r : Except Unit String)
    (h : jsTrim content = "") :
    (∃ e, (createPost u content category r).1 = .error e) ∧
    (createPost u content category r).2 = [] ∧
    (∀ usr : User, u = some usr →
      (createPost u content category r).1 = .error "Post content cannot be empty") := by
  have hlen : (jsTrim content).length = 0 := by rw [h]; rfl
  cases u with
  | none => exact ⟨⟨_, rfl⟩, rfl, fun usr h' => by cases h'⟩
  | some usr =>
    refine ⟨⟨"Post content cannot be empty", ?_⟩, ?_, ?_⟩
    · simp [createPost, hlen]
    · simp [createPost, hlen]
    · intro usr' h'
      simp [createPost, hlen]

/-- Witness for `createPost_empty_content_validation` at a concrete
whitespace-only content string. -/
theorem createPost_empty_content_validation_witness :
    jsTrim "   " = "" ∧
    ((∃ e, (createPost (some ⟨"u1", "a@b.com", true⟩) "   " "General" (.ok "d1")).1 = .error e) ∧
     (createPost (some ⟨"u1", "a@b.com", true⟩) "   " "General" (.ok "d1")).2 = [] ∧
     (∀ usr : User, (some ⟨"u1", "a@b.com", true⟩ : Option User) = some usr →
       (createPost (some ⟨"u1", "a@b.com", true⟩) "   " "General" (.ok "d1")).1
         = .error "Post content cannot be empty")) :=
  ⟨by decide,
   createPost_empty_content_validation (some ⟨"u1", "a@b.com", true⟩) "   " "General"
     (.ok "d1") (by decide)⟩

/-- C9: when sign-in succeeds but the `lastLogin` profile write fails,
`authenticateUser` still returns the signed-in user; the write failure is
only logged (`Error updating user profile:`), and no error reaches the
caller. -/
theorem authenticateUser_profile_write_best_effort (u : User) (werr : String) :
    authenticateUser (.ok u) (.error werr) = (.ok u, ["Error updating user profile:"]) :=
  rfl

/-- C10: when identity creation succeeds but the initial profile write
fails, `registerUser` throws the generic message `Authentication failed.
Please try again` — the same message an unrecognized provider auth error
produces, so the caller cannot tell the two apart — and the created
identity is not rolled back (`identityPersisted` stays true; no deletion
exists in the code). -/
theorem registerUser_profile_write_not_atomic (u : User) (werr : String) :
    registerUser (.ok u) (.error werr)
      = ⟨.error "Authentication failed. Please try again", true,
         ["Error creating user profile:"]⟩ ∧
    handleFirebaseError (.code "auth/internal-error")
      = "Authentication failed. Please try again" :=
  ⟨rfl, rfl⟩

/-- C2 (code bug): from a freshly rendered dashboard (both live
subscriptions open), clicking Logout with a successful sign-out swaps the
view to the login page while both subscriptions remain held — `cleanup`,
which would release them, is never invoked on any path.  The last conjunct
shows `cleanup` itself would have released them. -/
theorem logout_leaks_subscriptions :
    (logoutClick (renderDashboard ⟨.loading, false, false⟩) true).view = .login ∧
    (logoutClick (renderDashboard ⟨.loading, false, false⟩) true).postsSubActive = true ∧
    (logoutClick (renderDashboard ⟨.loading, false, false⟩) true).catsSubActive = true ∧
    (logoutClick (renderDashboard ⟨.loading, false, false⟩) false).postsSubActive = true ∧
    (cleanup (renderDashboard ⟨.loading, false, false⟩)).postsSubActive = false ∧
    (cleanup (renderDashboard ⟨.loading, false, false⟩)).catsSubActive = false := by
  decide

/-- Helper: what a successful dashboard post submission persists — the
content is the trimmed textarea value (non-empty), the category the one
derived from the selection. -/
theorem dashboardSubmitPost_ok_spec (sel value : String) (u : User)
    (r : Except Unit String) (p : Post)
    (hp : (dashboardSubmitPost sel value (some u) r).1 = .ok p) :
    p.content = jsTrim value ∧ p.category = submitCategoryFor sel ∧ jsTrim value ≠ "" := by
  simp only [dashboardSubmitPost] at hp
  split at hp
  · simp at hp
  · rename_i hne
    simp only [createPost] at hp
    split at hp
    · simp at hp
    · split at hp
      · simp at hp
        rw [← hp]
        exact ⟨jsTrim_idem value, rfl, hne⟩
      · simp at hp

/-- C6: submitting a post while the selected category is `All` persists a
post with category `General`; submitting while any other category `sel` is
selected persists a post with category `sel`. -/
theorem submit_assigns_selected_category (sel value value' : String) (u : User)
    (r r' : Except Unit String) (p q : Post)
    (hAll : (dashboardSubmitPost "All" value' (some u) r').1 = .ok q)
    (hSel : sel ≠ "All")
    (hp : (dashboardSubmitPost sel value (some u) r).1 = .ok p) :
    q.category = "General" ∧ p.category = sel := by
  have h1 := (dashboardSubmitPost_ok_spec "All" value' u r' q hAll).2.1
  have h2 := (dashboardSubmitPost_ok_spec sel value u r p hp).2.1
  constructor
  · rw [h1]; rfl
  · rw [h2]
    simp [submitCategoryFor, hSel]

/-- Witness for `submit_assigns_selected_category` at concrete inputs. -/
theorem submit_assigns_selected_category_witness :
    (dashboardSubmitPost "All" "hello" (some ⟨"u1", "a@b.com", true⟩) (.ok "d2")).1
      = .ok ⟨"d2", "hello", "General", "u1", "a@b.com", .server, .server⟩ ∧
    ("Work" : String) ≠ "All" ∧
    (dashboardSubmitPost "Work" "hi" (some ⟨"u1", "a@b.com", true⟩) (.ok "d1")).1
      = .ok ⟨"d1", "hi", "Work", "u1", "a@b.com", .server, .server⟩ ∧
    ((⟨"d2", "hello", "General", "u1", "a@b.com", .server, .server⟩ : Post).category
        = "General" ∧
      (⟨"d1", "hi", "Work", "u1", "a@b.com", .server, .server⟩ : Post).category = "Work") :=
  ⟨by decide, by decide, by decide,
   submit_assigns_selected_category "Work" "hi" "hello" ⟨"u1", "a@b.com", true⟩
     (.ok "d1") (.ok "d2") _ _ (by decide) (by decide) (by decide)⟩

/-- A 501-character content string. -/
def longContent : String := String.mk (List.replicate 501 'a')

set_option maxRecDepth 8000 in
/-- C3 counterexample: `createPost` itself enforces no length bound — called
directly with 501 characters of content it persists a post whose content is
501 characters long, so the claim as stated over `createPost` fails. -/
theorem createPost_persists_overlong_content :
    (createPost (some ⟨"u1", "a@b.com", true⟩) longContent "General" (.ok "d1")).1
      = .ok ⟨"d1", longContent, "General", "u1", "a@b.com", .server, .server⟩ ∧
    (createPost (some ⟨"u1", "a@b.com", true⟩) longContent "General" (.ok "d1")).2
      = [.addPost longContent "General" "u1" "a@b.com"] ∧
    500 < longContent.length := by
  refine ⟨?_, ?_, by decide⟩ <;> decide

/-- C3 amended: every post persisted through the dashboard post form has
trimmed, non-empty content of at most 500 characters — the bound coming
from the form's textarea `maxlength="500"` (src/auth.js line 616), which
caps the submitted value, not from `createPost`. -/
theorem dashboard_post_content_invariant (sel value : String) (u : User)
    (r : Except Unit String) (p : Post)
    (hlen : value.length ≤ 500)
    (hp : (dashboardSubmitPost sel value (some u) r).1 = .ok p) :
    jsTrim p.content = p.content ∧ p.content ≠ "" ∧ p.content.length ≤ 500 := by
  obtain ⟨hc, -, hne⟩ := dashboardSubmitPost_ok_spec sel value u r p hp
  refine ⟨?_, ?_, ?_⟩
  · rw [hc, jsTrim_idem]
  · rw [hc]; exact hne
  · rw [hc]
    exact le_trans (jsTrim_length_le value) hlen

/-- Witness for `dashboard_post_content_invariant` at a concrete input. -/
theorem dashboard_post_content_invariant_witness :
    ("  hi there " : String).length ≤ 500 ∧
    (dashboardSubmitPost "All" "  hi there " (some ⟨"u1", "a@b.com", true⟩) (.ok "d1")).1
      = .ok ⟨"d1", "hi there", "General", "u1", "a@b.com", .server, .server⟩ ∧
    (jsTrim (Post.content ⟨"d1", "hi there", "General", "u1", "a@b.com", .server, .server⟩)
        = "hi there" ∧
      (Post.content ⟨"d1", "hi there", "General", "u1", "a@b.com", .server, .server⟩) ≠ "" ∧
      (Post.content ⟨"d1", "hi there", "General", "u1", "a@b.com", .server, .server⟩).length
        ≤ 500) :=
  ⟨by decide, by decide,
   dashboard_post_content_invariant "All" "  hi there " ⟨"u1", "a@b.com", true⟩
     (.ok "d1") _ (by decide) (by decide)⟩

/-- C8: for an authenticated user both subscriptions open successfully, and
their error callbacks invoke the subscriber's callback with the empty list
and return normally (no exception propagates), whatever the query error. -/
theorem subscription_error_degrades_to_empty_callback (u : User)
    (cat : Option String) (lim : Nat) :
    (∃ q hs, subscribeToPosts (some u) cat lim = .ok (q, hs) ∧
      hs.onErr () = .ok ([] : List Post)) ∧
    (∃ q hs, subscribeToCategories (some u) = .ok (q, hs) ∧
      hs.onErr () = .ok ([] : List Category)) :=
  ⟨⟨_, _, rfl, rfl⟩, ⟨_, _, rfl, rfl⟩⟩

/- ## Regex-scan lemmas -/

theorem schemeSplit_eq {cs sch r : List Char} (h : schemeSplit cs = some (sch, r)) :
    sch ++ r = cs ∧ (sch = httpsScheme ∨ sch = httpScheme) := by
  unfold schemeSplit at h
  split_ifs at h with h1 h2
  · injection h with h'
    injection h' with ha hb
    subst ha
    subst hb
    refine ⟨?_, .inl rfl⟩
    conv_rhs => rw [← List.take_append_drop 8 cs]
    rw [h1]
  · injection h with h'
    injection h' with ha hb
    subst ha
    subst hb
    refine ⟨?_, .inr rfl⟩
    conv_rhs => rw [← List.take_append_drop 7 cs]
    rw [h2]

theorem matchUrlAt_spec {cs u rest : List Char} (h : matchUrlAt cs = some (u, rest)) :
    u ++ rest = cs ∧ u ≠ [] ∧ goodUrlB u = true := by
  unfold matchUrlAt at h
  cases hs : schemeSplit cs with
  | none => rw [hs] at h; cases h
  | some pr =>
    obtain ⟨sch, r⟩ := pr
    rw [hs] at h
    simp only [] at h
    obtain ⟨hcs, hsch⟩ := schemeSplit_eq hs
    set run := r.takeWhile urlBodyChar with hrun
    set core := run.rdropWhile trailingPunct with hcore
    split at h
    · rename_i hlen2
      injection h with h'
      injection h' with hu hrest
      subst hu
      subst hrest
      have hpre : core <+: run := by rw [hcore]; exact List.rdropWhile_prefix _ _
      obtain ⟨tl, htl⟩ := hpre
      have hdrop : run.drop core.length = tl := by
        rw [← htl]; exact List.drop_left' rfl
      have hne : core ≠ [] := by
        intro hh
        rw [hh] at hlen2
        simp at hlen2
      refine ⟨?_, ?_, ?_⟩
      · rw [hdrop, List.append_assoc]
        have hmid : core ++ (tl ++ r.dropWhile urlBodyChar) = r := by
          rw [← List.append_assoc, htl, hrun, List.takeWhile_append_dropWhile]
        rw [hmid, hcs]
      · rcases hsch with rfl | rfl <;> simp [httpsScheme, httpScheme]
      · have hall : core.all urlBodyChar = true := by
          rw [List.all_eq_true]
          intro x hx
          have hxrun : x ∈ run := (htl ▸ List.mem_append_left tl hx)
          rw [hrun] at hxrun
          exact List.mem_takeWhile_imp hxrun
        have hlastb : trailingPunct (core.getLast hne) = false := by
          have hlast := List.rdropWhile_last_not trailingPunct run
            (show run.rdropWhile trailingPunct ≠ [] by rw [← hcore]; exact hne)
          simpa using hlast
        rcases hsch with rfl | rfl
        · have hss : schemeSplit (httpsScheme ++ core) = some (httpsScheme, core) := by
            unfold schemeSplit
            rw [List.take_left' (show httpsScheme.length = 8 from rfl), if_pos rfl,
              List.drop_left' (show httpsScheme.length = 8 from rfl)]
          unfold goodUrlB
          rw [hss]
          dsimp only
          rw [List.getLast?_eq_getLast_of_ne_nil hne]
          dsimp only
          simp only [Bool.and_eq_true, decide_eq_true_eq]
          exact ⟨⟨hlen2, hall⟩, by rw [hlastb]; rfl⟩
        · have hneq : ¬(httpScheme ++ core).take 8 = httpsScheme := by
            cases core with
            | nil => decide
            | cons c t =>
              intro hh
              have h4 := congrArg (fun l : List Char => l[4]?) hh
              simp [httpScheme, httpsScheme] at h4
          have hss : schemeSplit (httpScheme ++ core) = some (httpScheme, core) := by
            unfold schemeSplit
            rw [if_neg hneq, List.take_left' (show httpScheme.length = 7 from rfl), if_pos rfl,
              List.drop_left' (show httpScheme.length = 7 from rfl)]
          unfold goodUrlB
          rw [hss]
          dsimp only
          rw [List.getLast?_eq_getLast_of_ne_nil hne]
          dsimp only
          simp only [Bool.and_eq_true, decide_eq_true_eq]
          exact ⟨⟨hlen2, hall⟩, by rw [hlastb]; rfl⟩
    · cases h

theorem matchUrlAt_length {cs u rest : List Char} (h : matchUrlAt cs = some (u, rest)) :
    rest.length < cs.length := by
  obtain ⟨happ, hne, -⟩ := matchUrlAt_spec h
  have hlen := congrArg List.length happ
  rw [List.length_append] at hlen
  have hpos : 0 < u.length := List.length_pos.mpr hne
  omega

theorem linkScan_fuel_eq (n : Nat) :
    ∀ cs : List Char, cs.length ≤ n → linkScan n cs = linkScan cs.length cs := by
  induction n using Nat.strong_induction_on with
  | _ n ih =>
    intro cs hle
    cases cs with
    | nil => cases n <;> rfl
    | cons c t =>
      rw [List.length_cons] at hle ⊢
      cases n with
      | zero => omega
      | succ m =>
        show linkScan (m + 1) (c :: t) = linkScan (t.length + 1) (c :: t)
        simp only [linkScan]
        cases hm : matchUrlAt (c :: t) with
        | some pr =>
          obtain ⟨u, rest⟩ := pr
          have hrl : rest.length < t.length + 1 := by
            have := matchUrlAt_length hm
            simpa using this
          have e1 : linkScan m rest = linkScan rest.length rest :=
            ih m (by omega) rest (by omega)
          have e2 : linkScan t.length rest = linkScan rest.length rest :=
            ih t.length (by omega) rest (by omega)
          dsimp only
          rw [e1, e2]
        | none =>
          have e1 : linkScan m t = linkScan t.length t :=
            ih m (by omega) t (by omega)
          dsimp only
          rw [e1]

theorem linkChunks_eq (cs : List Char) :
    linkChunks cs = (match matchUrlAt cs with
      | some (u, rest) => LinkChunk.url u :: linkChunks rest
      | none => (match cs with
        | [] => ([] : List LinkChunk)
        | c :: t => LinkChunk.text c :: linkChunks t)) := by
  cases cs with
  | nil => rfl
  | cons c t =>
    show linkScan ((c :: t).length) (c :: t) = _
    rw [List.length_cons]
    simp only [linkScan]
    cases hm : matchUrlAt (c :: t) with
    | some pr =>
      obtain ⟨u, rest⟩ := pr
      have hrl : rest.length ≤ t.length := by
        have := matchUrlAt_length hm
        simp at this
        omega
      dsimp only
      rw [linkScan_fuel_eq t.length rest hrl]
      rfl
    | none => rfl

theorem linkChunks_flatten (n : Nat) :
    ∀ cs : List Char, cs.length ≤ n →
      ((linkChunks cs).map chunkPayload).flatten = cs := by
  induction n with
  | zero =>
    intro cs h
    have : cs = [] := List.length_eq_zero.mp (Nat.le_zero.mp h)
    subst this
    rfl
  | succ m ih =>
    intro cs hle
    rw [linkChunks_eq]
    cases hm : matchUrlAt cs with
    | some pr =>
      obtain ⟨u, rest⟩ := pr
      simp only [List.map_cons, List.flatten_cons, chunkPayload]
      have hrl : rest.length ≤ m := by
        have := matchUrlAt_length hm
        omega
      rw [ih rest hrl]
      exact (matchUrlAt_spec hm).1
    | none =>
      cases cs with
      | nil => rfl
      | cons c t =>
        simp only [List.map_cons, List.flatten_cons, chunkPayload]
        have hrl : t.length ≤ m := by
          rw [List.length_cons] at hle
          omega
        rw [ih t hrl]
        rfl

theorem linkChunks_urls_good (n : Nat) :
    ∀ cs : List Char, cs.length ≤ n →
      ((linkChunks cs).filterMap urlOf).all (fun u => goodUrlB u.data) = true := by
  induction n with
  | zero =>
    intro cs h
    have : cs = [] := List.length_eq_zero.mp (Nat.le_zero.mp h)
    subst this
    rfl
  | succ m ih =>
    intro cs hle
    rw [linkChunks_eq]
    cases hm : matchUrlAt cs with
    | some pr =>
      obtain ⟨u, rest⟩ := pr
      have hrl : rest.length ≤ m := by
        have := matchUrlAt_length hm
        omega
      simp only [List.filterMap_cons, urlOf, List.all_cons, Bool.and_eq_true]
      exact ⟨(matchUrlAt_spec hm).2.2, ih rest hrl⟩
    | none =>
      cases cs with
      | nil => rfl
      | cons c t =>
        have hrl : t.length ≤ m := by
          rw [List.length_cons] at hle
          omega
        simp only [List.filterMap_cons, urlOf]
        exact ih t hrl

/-- C7 amended: `linkifyText` decomposes its input into single unmatched
characters and regex matches such that (1) the decomposition covers the
input exactly — concatenating the chunks' characters gives the input back,
so all text outside matches is character-for-character unaltered and every
match appears verbatim inside its anchor; (2) the output is exactly the
chunks rendered, each match wrapped in the new-tab
`rel="noopener noreferrer"` anchor template; (3) every extracted match is
well-formed in the code's sense: `http(s)://` plus a run of at least two
characters drawn from the class excluding whitespace, angle brackets and
quotes, ending in a non-punctuation character (so, unlike the claim's
reading, a run that keeps fewer than two characters after trimming
trailing punctuation, or is cut short by a quote or angle bracket, is not
linkified); and (4) the decomposition is the leftmost-greedy scan: at
every position a regex match is taken when one exists, otherwise one
character is passed through. -/
theorem linkifyText_spec (s : String) (cs : List Char) :
    ((linkChunks s.data).map chunkPayload).flatten = s.data ∧
    linkifyText s = String.mk ((linkChunks s.data).map renderChunk).flatten ∧
    ((extractUrls s).all fun u => goodUrlB u.data) = true ∧
    linkChunks cs = (match matchUrlAt cs with
      | some (u, rest) => LinkChunk.url u :: linkChunks rest
      | none => (match cs with
        | [] => ([] : List LinkChunk)
        | c :: t => LinkChunk.text c :: linkChunks t)) :=
  ⟨linkChunks_flatten s.data.length s.data le_rfl, rfl,
   linkChunks_urls_good s.data.length s.data le_rfl, linkChunks_eq cs⟩

/-- C7 counterexample: `http://a` contains a URL that is well-formed by the
claim's definition (scheme followed by the non-whitespace run `a`, which
survives trailing-punctuation trimming), yet `linkifyText` returns the
input unchanged — no anchor is inserted — because the regex requires at
least two characters after the scheme. -/
theorem linkifyText_misses_claim_wellformed_url :
    specHasUrl ("http://a").data = true ∧
    linkifyText "http://a" = "http://a" ∧
    extractUrls "http://a" = [] := by
  decide

/- ## Post and category rendering (renderPosts / renderCategories) -/

/-- Bool-valued prefix test, written out so concrete instances evaluate. -/
def leadsWith : List Char → List Char → Bool
  | [], _ => true
  | _ :: _, [] => false
  | a :: as, b :: bs => a == b && leadsWith as bs

/-- Bool-valued substring test: `needle` occurs contiguously in the
haystack. -/
def hasSub (needle : List Char) : List Char → Bool
  | [] => needle.isEmpty
  | c :: cs => leadsWith needle (c :: cs) || hasSub needle cs

def postCardSeg1 : String :=
  "<div class=\"border border-custom-grey p-5 bg-custom-white hover:opacity-80 transition-opacity\"><div class=\"flex justify-between items-start mb-3\"><div class=\"flex items-center space-x-3\"><span class=\"text-xs px-2 py-1 bg-custom-blue text-custom-white\">"

def postCardSeg2 : String := "</span></div><div class=\"text-xs text-custom-black\">"

def postCardSeg3 : String :=
  "</div></div><div class=\"text-sm text-custom-black whitespace-pre-wrap leading-relaxed\">"

def postCardSeg4 : String := "</div>"

def postCardSeg5 : String := "</div>"

/-- One post entry of `PageRenderer.renderPosts` (src/auth.js lines
1013-1038): the category name (`post.category || 'General'`, an empty
string being falsy) and the time-ago string are interpolated raw; the
content is escaped with `escapeHtml`, then linkified; the link-preview
section is `generateLinkPreview` (lines 1072-1122, abstracted here as the
parameter `previewOf`) applied to each URL extracted from the raw content
and concatenated.  Insignificant template whitespace is not reproduced. -/
def renderPostEntry (p : Post) (timeAgo : String) (previewOf : String → String) : String :=
  let categoryName := if p.category = "" then "General" else p.category
  let linkedContent := linkifyText (escapeHtml p.content)
  let linkPreviews := String.join ((extractUrls p.content).map previewOf)
  postCardSeg1 ++ categoryName ++ postCardSeg2 ++ timeAgo ++ postCardSeg3
    ++ linkedContent ++ postCardSeg4 ++ linkPreviews ++ postCardSeg5

def categoryButtonSeg1 : String :=
  "<button class=\"category-btn w-full text-left px-3 py-2 text-sm text-custom-black border border-custom-grey bg-custom-white hover:opacity-80 transition-opacity\" data-category=\""

def categoryButtonSeg2 : String := "\">"

def categoryButtonSeg3 : String := "</button>"

/-- The sidebar category list markup of `PageRenderer.renderCategories`
(src/auth.js lines 966-973): each category's name is interpolated raw into
both the `data-category` attribute and the button text.  Insignificant
template whitespace is not reproduced. -/
def categoriesListHtml (cats : List Category) : String :=
  String.join (cats.map fun c =>
    categoryButtonSeg1 ++ c.name ++ categoryButtonSeg2 ++ c.name ++ categoryButtonSeg3)

set_option maxRecDepth 40000 in
/-- C1 (code bug): a category named `<s>hi</s>` reaches the document
unescaped, both in the post card's category badge and in the sidebar
category list, while post content is escaped: the rendered markup contains
the raw `<s>hi</s>`, although `escapeHtml` — applied to content but never
to category names — would have produced `&lt;s&gt;hi&lt;/s&gt;`; content
containing `<img` is rendered only in escaped form. -/
theorem category_names_rendered_unescaped :
    hasSub ("<s>hi</s>").data
      (renderPostEntry ⟨"p1", "hello", "<s>hi</s>", "u1", "a@b.com", .server, .server⟩
        "just now" (fun _ => "")).data = true ∧
    hasSub ("<s>hi</s>").data
      (categoriesListHtml [⟨"c1", "<s>hi</s>", "u1", .server⟩]).data = true ∧
    escapeHtml "<s>hi</s>" = "&lt;s&gt;hi&lt;/s&gt;" ∧
    hasSub ("<s>").data (escapeHtml "<s>hi</s>").data = false ∧
    hasSub ("<img").data
      (renderPostEntry ⟨"p2", "<img src=x>", "General", "u1", "a@b.com", .server, .server⟩
        "just now" (fun _ => "")).data = false ∧
    hasSub ("&lt;img").data
      (renderPostEntry ⟨"p2", "<img src=x>", "General", "u1", "a@b.com", .server, .server⟩
        "just now" (fun _ => "")).data = true := by
  decide

end Ssaavvee
